import Mathlib

/-!
Verification of the quantitative signal-processing core of the
webscrapper-ai repository (weighted scoring, EWMA baseline, z-score,
CUSUM drift detection, lane-health classification, attribution).

Shallow embedding conventions:
  - Python floats are modelled as exact rationals where the source only
    performs field arithmetic and comparisons (scoring, rollup,
    attribution), and as real numbers where the source uses sqrt or
    real exponentiation (EWMA, z-score, half-life conversion, the
    per-period pipeline step).
  - Python dict lookup d[k] raises KeyError on a missing key; partial
    tables are modelled as Option-valued maps and the scoring function
    returns an Except value.
  - Enum-typed provenance attributes are modelled by their string
    values, so that unmapped values are representable.
-/

namespace Advuman

/-- Exception classes relevant to the embedded code. The source code only
ever raises keyError (plain dict indexing) and zeroDivisionError (float
division by zero); unknownAttributeError is included as vocabulary because
the specification names it, but no function in the repository raises it. -/
inductive PyExc where
  | keyError
  | zeroDivisionError
  | unknownAttributeError
deriving DecidableEq, Repr

/-- Lane health status enum, from src/db/models.py (HealthStatus). -/
inductive HealthStatus where
  | STABLE
  | WATCH
  | ACTIVE
deriving DecidableEq, Repr

/-- SOURCE_WEIGHTS from src/db/seed.py, keyed by the SourceLayer value
string; absent keys model values with no WeightMatrix entry. -/
def SOURCE_WEIGHTS : String → Option ℚ
  | "Primary" => some 1
  | "Logistics" => some (4/5)
  | "Market" => some (7/10)
  | "Industry" => some (3/5)
  | _ => none

/-- STATUS_WEIGHTS from src/db/seed.py, keyed by the EventStatus value
string. -/
def STATUS_WEIGHTS : String → Option ℚ
  | "Enforced" => some 1
  | "Announced" => some (7/10)
  | "Draft" => some (2/5)
  | _ => none

/-- CONFIDENCE_WEIGHTS from src/db/seed.py, keyed by the ConfidenceLevel
value string. -/
def CONFIDENCE_WEIGHTS : String → Option ℚ
  | "High" => some 1
  | "Medium" => some (7/10)
  | "Low" => some (2/5)
  | _ => none

/-- PRECEDENT_WEIGHTS from src/db/seed.py: both booleans are mapped, so
this lookup is total (False, novel, weighs 1.2; True weighs 1.0). -/
def PRECEDENT_WEIGHTS : Bool → ℚ
  | false => 6/5
  | true => 1

/-- compute_weighted_score from src/src/pipeline/scoring.py. The four
table lookups happen in source order (source, status, confidence,
precedent); a missing key raises KeyError at that point. On success the
function returns (weighted_score, source_w, status_w, confidence_w,
precedent_w) with weighted_score = delta * source_w * status_w *
confidence_w * precedent_w. -/
def compute_weighted_score (delta : ℤ) (source_layer event_status confidence_level : String)
    (historical_precedent : Bool) : Except PyExc (ℚ × ℚ × ℚ × ℚ × ℚ) :=
  match SOURCE_WEIGHTS source_layer with
  | none => Except.error PyExc.keyError
  | some source_w =>
    match STATUS_WEIGHTS event_status with
    | none => Except.error PyExc.keyError
    | some status_w =>
      match CONFIDENCE_WEIGHTS confidence_level with
      | none => Except.error PyExc.keyError
      | some confidence_w =>
        let precedent_w := PRECEDENT_WEIGHTS historical_precedent
        let weighted_score := (delta : ℚ) * source_w * status_w * confidence_w * precedent_w
        Except.ok (weighted_score, source_w, status_w, confidence_w, precedent_w)

/-- Default lane-health WATCH threshold, from src/src/config.py
(lane_health_watch = 4). -/
def lane_health_watch : ℚ := 4

/-- Default lane-health ACTIVE threshold, from src/src/config.py
(lane_health_active = 8). -/
def lane_health_active : ℚ := 8

/-- compute_lane_health from src/src/pipeline/rollup.py, with the default
thresholds from config. -/
def compute_lane_health (rpi_total lsi_total cpi_total : ℚ) : ℚ × HealthStatus :=
  let combined := rpi_total + lsi_total + cpi_total
  if combined ≥ lane_health_active then (combined, HealthStatus.ACTIVE)
  else if combined ≥ lane_health_watch then (combined, HealthStatus.WATCH)
  else (combined, HealthStatus.STABLE)

/-- C2: compute_weighted_score multiplies delta by the four configured
weights and returns all components; the concrete example
delta = -1, Primary, Draft, High, precedent yields -0.4 = -2/5; and for
two calls identical except for the precedent flag, the novel score is
exactly 1.2 times the known score, so their ratio is exactly 1.2 whenever
the known score is nonzero. -/
theorem C2_weighted_score :
    (∀ (delta : ℤ) (s st c : String) (p : Bool) (sw stw cw : ℚ),
      SOURCE_WEIGHTS s = some sw → STATUS_WEIGHTS st = some stw →
      CONFIDENCE_WEIGHTS c = some cw →
      compute_weighted_score delta s st c p =
        Except.ok ((delta : ℚ) * sw * stw * cw * PRECEDENT_WEIGHTS p,
          sw, stw, cw, PRECEDENT_WEIGHTS p))
    ∧ compute_weighted_score (-1) "Primary" "Draft" "High" true =
        Except.ok (-(2/5), 1, 2/5, 1, 1)
    ∧ (∀ (delta : ℤ) (s st c : String) (r₁ r₂ : ℚ × ℚ × ℚ × ℚ × ℚ),
      compute_weighted_score delta s st c false = Except.ok r₁ →
      compute_weighted_score delta s st c true = Except.ok r₂ →
      r₁.1 = (6/5) * r₂.1 ∧ (r₂.1 ≠ 0 → r₁.1 / r₂.1 = 6/5)) := by
  refine ⟨?_,
    by norm_num [compute_weighted_score, SOURCE_WEIGHTS, STATUS_WEIGHTS,
      CONFIDENCE_WEIGHTS, PRECEDENT_WEIGHTS], ?_⟩
  · intro delta s st c p sw stw cw hs hst hc
    simp [compute_weighted_score, hs, hst, hc]
  · intro delta s st c r₁ r₂ h₁ h₂
    cases hs : SOURCE_WEIGHTS s with
    | none => simp [compute_weighted_score, hs] at h₁
    | some sw =>
      cases hst : STATUS_WEIGHTS st with
      | none => simp [compute_weighted_score, hs, hst] at h₁
      | some stw =>
        cases hc : CONFIDENCE_WEIGHTS c with
        | none => simp [compute_weighted_score, hs, hst, hc] at h₁
        | some cw =>
          simp [compute_weighted_score, hs, hst, hc, PRECEDENT_WEIGHTS] at h₁ h₂
          have he : r₁.1 = (6/5) * r₂.1 := by
            rw [← h₁, ← h₂]
            ring
          refine ⟨he, fun hne => ?_⟩
          rw [he, mul_div_assoc, div_self hne, mul_one]

/-- C2 witness: the ratio clause applied at the concrete input
delta = 1, Primary, Announced, High; the novel score 21/25 is exactly 6/5
of the known score 7/10. -/
theorem C2_witness :
    ((21/25 : ℚ), (1 : ℚ), (7/10 : ℚ), (1 : ℚ), (6/5 : ℚ)).1 =
      (6/5) * ((7/10 : ℚ), (1 : ℚ), (7/10 : ℚ), (1 : ℚ), (1 : ℚ)).1 ∧
    (((7/10 : ℚ), (1 : ℚ), (7/10 : ℚ), (1 : ℚ), (1 : ℚ)).1 ≠ 0 →
      ((21/25 : ℚ), (1 : ℚ), (7/10 : ℚ), (1 : ℚ), (6/5 : ℚ)).1 /
        ((7/10 : ℚ), (1 : ℚ), (7/10 : ℚ), (1 : ℚ), (1 : ℚ)).1 = 6/5) :=
  C2_weighted_score.2.2 1 "Primary" "Announced" "High" _ _
    (by norm_num [compute_weighted_score, SOURCE_WEIGHTS, STATUS_WEIGHTS,
      CONFIDENCE_WEIGHTS, PRECEDENT_WEIGHTS])
    (by norm_num [compute_weighted_score, SOURCE_WEIGHTS, STATUS_WEIGHTS,
      CONFIDENCE_WEIGHTS, PRECEDENT_WEIGHTS])

/-- C7 counterexample: at the unmapped status value Bogus the lookup fails
with KeyError, not with the UnknownAttributeError the specification names
(no UnknownAttributeError type exists anywhere in the repository). -/
theorem C7_counterexample :
    compute_weighted_score 1 "Primary" "Bogus" "High" true =
      Except.error PyExc.keyError ∧
    PyExc.keyError ≠ PyExc.unknownAttributeError := by
  exact ⟨rfl, by decide⟩

/-- C7 amended: for every input whose source, status or confidence value
has no WeightMatrix entry, compute_weighted_score fails with KeyError (the
builtin raised by dict indexing) — an unmapped value is an error, never a
silent default weight. The precedent lookup is total on booleans and
cannot fail. -/
theorem C7_unmapped_value_errors :
    ∀ (delta : ℤ) (s st c : String) (p : Bool),
      (SOURCE_WEIGHTS s = none ∨ STATUS_WEIGHTS st = none ∨
        CONFIDENCE_WEIGHTS c = none) →
      compute_weighted_score delta s st c p = Except.error PyExc.keyError := by
  intro delta s st c p h
  cases hs : SOURCE_WEIGHTS s with
  | none => simp [compute_weighted_score, hs]
  | some sw =>
    cases hst : STATUS_WEIGHTS st with
    | none => simp [compute_weighted_score, hs, hst]
    | some stw =>
      cases hc : CONFIDENCE_WEIGHTS c with
      | none => simp [compute_weighted_score, hs, hst, hc]
      | some cw =>
        rcases h with h | h | h
        · rw [hs] at h; exact absurd h (by simp)
        · rw [hst] at h; exact absurd h (by simp)
        · rw [hc] at h; exact absurd h (by simp)

/-- C7 witness: the amended claim applied at the concrete unmapped source
value Nope. -/
theorem C7_witness :
    compute_weighted_score 0 "Nope" "Draft" "High" false =
      Except.error PyExc.keyError :=
  C7_unmapped_value_errors 0 "Nope" "Draft" "High" false (Or.inl (by decide))

/-- C3: compute_lane_health returns the sum of the three raw totals as the
combined total and classifies with inclusive lower bounds at the defaults
watch = 4 and active = 8; the six concrete cases from the specification
hold. -/
theorem C3_lane_health :
    (∀ r l c : ℚ, (compute_lane_health r l c).1 = r + l + c)
    ∧ (∀ r l c : ℚ, 8 ≤ r + l + c →
        compute_lane_health r l c = (r + l + c, HealthStatus.ACTIVE))
    ∧ (∀ r l c : ℚ, 4 ≤ r + l + c → r + l + c < 8 →
        compute_lane_health r l c = (r + l + c, HealthStatus.WATCH))
    ∧ (∀ r l c : ℚ, r + l + c < 4 →
        compute_lane_health r l c = (r + l + c, HealthStatus.STABLE))
    ∧ compute_lane_health 5 2 2 = (9, HealthStatus.ACTIVE)
    ∧ compute_lane_health 1 1 0 = (2, HealthStatus.STABLE)
    ∧ compute_lane_health 2 1 2 = (5, HealthStatus.WATCH)
    ∧ compute_lane_health 0 0 0 = (0, HealthStatus.STABLE)
    ∧ compute_lane_health 2 1 1 = (4, HealthStatus.WATCH)
    ∧ compute_lane_health 3 3 2 = (8, HealthStatus.ACTIVE) := by
  have hc : ∀ r l c : ℚ,
      compute_lane_health r l c =
        if r + l + c ≥ 8 then (r + l + c, HealthStatus.ACTIVE)
        else if r + l + c ≥ 4 then (r + l + c, HealthStatus.WATCH)
        else (r + l + c, HealthStatus.STABLE) := by
    intro r l c
    simp [compute_lane_health, lane_health_active, lane_health_watch]
  refine ⟨?_, ?_, ?_, ?_,
    by norm_num [hc], by norm_num [hc], by norm_num [hc],
    by norm_num [hc], by norm_num [hc], by norm_num [hc]⟩
  · intro r l c
    rw [hc]
    split <;> first | rfl | (split <;> rfl)
  · intro r l c h
    rw [hc]
    simp [h]
  · intro r l c h₁ h₂
    rw [hc]
    simp [h₁, not_le.mpr h₂]
  · intro r l c h
    have h₁ : ¬ (8 : ℚ) ≤ r + l + c := by linarith
    have h₂ : ¬ (4 : ℚ) ≤ r + l + c := by linarith
    rw [hc]
    simp [h₁, h₂]

/-- C3 witness: the ACTIVE clause applied at the concrete boundary input
(5, 2, 1), whose combined total is exactly the ACTIVE threshold 8. -/
theorem C3_witness :
    compute_lane_health 5 2 1 = (5 + 2 + 1, HealthStatus.ACTIVE) :=
  C3_lane_health.2.1 5 2 1 (by norm_num)

/-- CUSUMState from src/src/pipeline/cusum.py: the two accumulators,
both initialized to 0. -/
structure CUSUMState where
  upper : ℝ
  lower : ℝ

/-- The CUSUMState() default constructor value (upper = 0, lower = 0). -/
noncomputable def cusumInit : CUSUMState := ⟨0, 0⟩

/-- The state transition inside CUSUMDetector.update from
src/src/pipeline/cusum.py: upper becomes max(0, upper + z - k) and lower
becomes min(0, lower + z + k). -/
noncomputable def cusumUpdate (k : ℝ) (st : CUSUMState) (z : ℝ) : CUSUMState :=
  ⟨max 0 (st.upper + z - k), min 0 (st.lower + z + k)⟩

/-- The alarm condition computed by CUSUMDetector.update: the updated
upper accumulator exceeds h, or the absolute value of the updated lower
accumulator exceeds h. -/
def cusumAlarm (h : ℝ) (st : CUSUMState) : Prop :=
  st.upper > h ∨ |st.lower| > h

/-- CUSUMDetector.reset from src/src/pipeline/cusum.py: replaces the state
with a fresh CUSUMState(), discarding the argument. -/
noncomputable def cusumReset (_st : CUSUMState) : CUSUMState := cusumInit

/-- A sequence of CUSUMDetector.update calls folded over a list of
z-scores, keeping only the resulting state. -/
noncomputable def cusumIterate (k : ℝ) (st : CUSUMState) (zs : List ℝ) : CUSUMState :=
  zs.foldl (cusumUpdate k) st

/-- One update at the constant value z = k from the zero state keeps the
zero state, for k at least 0. -/
theorem cusumUpdate_const_k (k : ℝ) (hk : 0 ≤ k) : cusumUpdate k cusumInit k = cusumInit := by
  unfold cusumUpdate cusumInit
  have h₁ : (0 : ℝ) + k - k = 0 := by ring
  have h₂ : (0 : ℝ) + k + k = 2 * k := by ring
  rw [h₁, h₂, max_self]
  have : min 0 (2 * k) = 0 := min_eq_left (by linarith)
  rw [this]

/-- C6: for all k, h greater than 0, a detector starting from (0, 0) and
fed the constant value z = k on every update keeps both accumulators at
exactly 0 after every update, and no update ever raises an alarm. -/
theorem C6_constant_k_never_alarms (k h : ℝ) (hk : 0 < k) (hh : 0 < h) :
    ∀ n : ℕ, cusumIterate k cusumInit (List.replicate n k) = cusumInit ∧
      ¬ cusumAlarm h (cusumIterate k cusumInit (List.replicate n k)) := by
  have hstep : ∀ n : ℕ, cusumIterate k cusumInit (List.replicate n k) = cusumInit := by
    intro n
    induction n with
    | zero => rfl
    | succ m ih =>
      rw [List.replicate_succ]
      show cusumIterate k (cusumUpdate k cusumInit k) (List.replicate m k) = cusumInit
      rw [cusumUpdate_const_k k hk.le]
      exact ih
  intro n
  refine ⟨hstep n, ?_⟩
  rw [hstep n]
  unfold cusumAlarm cusumInit
  push_neg
  constructor
  · exact hh.le
  · rw [abs_zero]
    exact hh.le

/-- C6 witness: the theorem applied at k = 1, h = 2 and three updates. -/
theorem C6_witness :
    cusumIterate 1 cusumInit (List.replicate 3 1) = cusumInit ∧
      ¬ cusumAlarm 2 (cusumIterate 1 cusumInit (List.replicate 3 1)) :=
  C6_constant_k_never_alarms 1 2 (by norm_num) (by norm_num) 3

/-- C9: the upper accumulator stays at least 0 and the lower accumulator
stays at most 0 across any sequence of updates from any initial state
with that sign pattern, for any reference value k and any real z-scores;
and reset restores exactly (0, 0) regardless of prior accumulation. -/
theorem C9_sign_invariant :
    (∀ (k : ℝ) (st : CUSUMState) (z : ℝ),
      0 ≤ (cusumUpdate k st z).upper ∧ (cusumUpdate k st z).lower ≤ 0)
    ∧ (∀ (k : ℝ) (st : CUSUMState) (zs : List ℝ),
      0 ≤ st.upper → st.lower ≤ 0 →
      0 ≤ (cusumIterate k st zs).upper ∧ (cusumIterate k st zs).lower ≤ 0)
    ∧ (∀ st : CUSUMState, cusumReset st = cusumInit) := by
  refine ⟨?_, ?_, fun st => rfl⟩
  · intro k st z
    exact ⟨le_max_left 0 _, min_le_left 0 _⟩
  · intro k st zs
    induction zs generalizing st with
    | nil => intro h₁ h₂; exact ⟨h₁, h₂⟩
    | cons z rest ih =>
      intro h₁ h₂
      show 0 ≤ (cusumIterate k (cusumUpdate k st z) rest).upper ∧
        (cusumIterate k (cusumUpdate k st z) rest).lower ≤ 0
      exact ih (cusumUpdate k st z) (le_max_left 0 _) (min_le_left 0 _)

/-- C9 witness: the iterate clause applied at k = 1/2, the zero initial
state and the concrete z-score sequence [5, -3]. -/
theorem C9_witness :
    0 ≤ (cusumIterate (1/2) cusumInit [5, -3]).upper ∧
      (cusumIterate (1/2) cusumInit [5, -3]).lower ≤ 0 :=
  C9_sign_invariant.2.1 (1/2) cusumInit [5, -3] le_rfl le_rfl

/-- EWMABaseline from src/src/pipeline/ewma.py: the decay parameter and
the optional mean and variance fields (both None until the first
observation; the source sets and reads them in lockstep, so the variance
read in the tracking branch is rendered total with getD 0). -/
structure EWMABaseline where
  lam : ℝ
  mean : Option ℝ
  variance : Option ℝ

/-- The EWMABaseline constructor: mean and variance start as None. -/
def EWMABaseline.init (lam : ℝ) : EWMABaseline := ⟨lam, none, none⟩

/-- EWMABaseline.update from src/src/pipeline/ewma.py. First observation:
mean := x, variance := 0, returns (x, 0.0). Tracking: mean := lam * x +
(1 - lam) * mean, variance := lam * (x - mean)^2 + (1 - lam) * variance,
sigma := sqrt(variance) if variance > 0 else 0.0. Returns the new state
together with (mean, sigma). -/
noncomputable def EWMABaseline.update (b : EWMABaseline) (x : ℝ) : EWMABaseline × ℝ × ℝ :=
  match b.mean with
  | none => (⟨b.lam, some x, some 0⟩, x, 0)
  | some m =>
    let mean := b.lam * x + (1 - b.lam) * m
    let variance := b.lam * (x - mean) ^ 2 + (1 - b.lam) * (b.variance.getD 0)
    let sigma := if variance > 0 then Real.sqrt variance else 0
    (⟨b.lam, some mean, some variance⟩, mean, sigma)

/-- A sequence of EWMABaseline.update calls folded over a list of
observations, keeping only the resulting state. -/
noncomputable def ewmaIterate (b : EWMABaseline) (xs : List ℝ) : EWMABaseline :=
  xs.foldl (fun s x => (s.update x).1) b

/-- The sigma branch of the source (sqrt for positive variance, else 0)
agrees with sqrt of the variance clamped below at 0. -/
theorem sigma_branch_eq_sqrt_max (v : ℝ) :
    (if v > 0 then Real.sqrt v else 0) = Real.sqrt (max v 0) := by
  by_cases hv : v > 0
  · rw [if_pos hv, max_eq_left hv.le]
  · rw [if_neg hv, max_eq_right (not_lt.mp hv), Real.sqrt_zero]

/-- C4: EWMABaseline.update is a two-state transition. On a state with
mean = None it stores mean := x, variance := 0 and returns (x, 0.0)
exactly; on a tracking state (some m, some v) it stores the recurrences
mean := lam * x + (1 - lam) * m and variance := lam * (x - mean)^2 +
(1 - lam) * v and returns the new mean together with
sqrt(max(variance, 0)). -/
theorem C4_ewma_update :
    (∀ (b : EWMABaseline) (x : ℝ), b.mean = none →
      b.update x = (⟨b.lam, some x, some 0⟩, x, 0))
    ∧ (∀ (lam m v x : ℝ),
      EWMABaseline.update ⟨lam, some m, some v⟩ x =
        (⟨lam, some (lam * x + (1 - lam) * m),
          some (lam * (x - (lam * x + (1 - lam) * m)) ^ 2 + (1 - lam) * v)⟩,
         lam * x + (1 - lam) * m,
         Real.sqrt (max (lam * (x - (lam * x + (1 - lam) * m)) ^ 2 + (1 - lam) * v) 0))) := by
  constructor
  · intro b x hb
    unfold EWMABaseline.update
    rw [hb]
  · intro lam m v x
    unfold EWMABaseline.update
    simp only [Option.getD_some]
    rw [sigma_branch_eq_sqrt_max]

/-- C4 witness: the uninitialized clause applied at the fresh baseline
with lam = 1/2 and the first observation x = 3. -/
theorem C4_witness :
    (EWMABaseline.init (1/2)).update 3 = (⟨1/2, some 3, some 0⟩, 3, 0) :=
  C4_ewma_update.1 (EWMABaseline.init (1/2)) 3 rfl

/-- An update never changes the decay parameter. -/
theorem ewma_update_lam (b : EWMABaseline) (x : ℝ) : ((b.update x).1).lam = b.lam := by
  unfold EWMABaseline.update
  cases b.mean <;> rfl

/-- An update from a state with nonnegative (or absent) variance yields a
state with nonnegative variance, for lam in [0, 1]. -/
theorem ewma_update_var_nonneg (b : EWMABaseline) (x : ℝ)
    (h0 : 0 ≤ b.lam) (h1 : b.lam ≤ 1) (hv : 0 ≤ b.variance.getD 0) :
    0 ≤ ((b.update x).1).variance.getD 0 := by
  unfold EWMABaseline.update
  cases b.mean with
  | none => simp
  | some m =>
    simp only [Option.getD_some]
    have hsq : (0 : ℝ) ≤ (x - (b.lam * x + (1 - b.lam) * m)) ^ 2 := sq_nonneg _
    have h₁ : (0 : ℝ) ≤ b.lam * (x - (b.lam * x + (1 - b.lam) * m)) ^ 2 :=
      mul_nonneg h0 hsq
    have h₂ : (0 : ℝ) ≤ (1 - b.lam) * b.variance.getD 0 :=
      mul_nonneg (by linarith) hv
    linarith

/-- C10: for every lam in [0, 1] and every observation sequence fed to a
fresh baseline, the stored variance is nonnegative after each update; and
the sigma returned by any single update is nonnegative and equals sqrt of
max(new variance, 0). -/
theorem C10_variance_nonneg :
    (∀ (lam : ℝ), 0 ≤ lam → lam ≤ 1 → ∀ xs : List ℝ,
      0 ≤ ((ewmaIterate (EWMABaseline.init lam) xs).variance.getD 0))
    ∧ (∀ (b : EWMABaseline) (x : ℝ),
      0 ≤ (b.update x).2.2 ∧
      (b.update x).2.2 = Real.sqrt (max (((b.update x).1).variance.getD 0) 0)) := by
  have haux : ∀ (xs : List ℝ) (b : EWMABaseline),
      0 ≤ b.lam → b.lam ≤ 1 → 0 ≤ b.variance.getD 0 →
      0 ≤ ((ewmaIterate b xs).variance.getD 0) := by
    intro xs
    induction xs with
    | nil => intro b _ _ hv; exact hv
    | cons x rest ih =>
      intro b h0 h1 hv
      show 0 ≤ ((ewmaIterate ((b.update x).1) rest).variance.getD 0)
      refine ih ((b.update x).1) ?_ ?_ (ewma_update_var_nonneg b x h0 h1 hv)
      · rw [ewma_update_lam]; exact h0
      · rw [ewma_update_lam]; exact h1
  constructor
  · intro lam h0 h1 xs
    exact haux xs (EWMABaseline.init lam) h0 h1 (by simp [EWMABaseline.init])
  · intro b x
    constructor
    · unfold EWMABaseline.update
      cases b.mean with
      | none => simp
      | some m =>
        simp only
        split
        · exact Real.sqrt_nonneg _
        · exact le_rfl
    · unfold EWMABaseline.update
      cases b.mean with
      | none => simp
      | some m =>
        simp only [Option.getD_some]
        rw [sigma_branch_eq_sqrt_max]

/-- C10 witness: the variance clause applied at lam = 1/2 and the
concrete observation sequence [1, 2]. -/
theorem C10_witness :
    0 ≤ ((ewmaIterate (EWMABaseline.init (1/2)) [1, 2]).variance.getD 0) :=
  C10_variance_nonneg.1 (1/2) (by norm_num) (by norm_num) [1, 2]

/-- compute_zscore from src/src/pipeline/zscore.py: None when sigma is at
most 0, else (value - mean) / sigma. -/
noncomputable def compute_zscore (value ewma_mean ewma_sigma : ℝ) : Option ℝ :=
  if ewma_sigma ≤ 0 then none else some ((value - ewma_mean) / ewma_sigma)

/-- lambda_from_halflife from src/src/pipeline/ewma.py: computes
1 - 2 ** (-1 / half_life_days) with no input validation; the only failure
is the float division -1 / 0.0, which raises ZeroDivisionError. -/
noncomputable def lambda_from_halflife (half_life_days : ℝ) : Except PyExc ℝ :=
  if half_life_days = 0 then Except.error PyExc.zeroDivisionError
  else Except.ok (1 - Real.rpow 2 (-1 / half_life_days))

/-- C8 counterexample: at the non-positive half-life H = -1 the function
does not raise; it returns the value -1 (since 2 ** ((-1) / (-1)) = 2),
refuting the claim that every H at most 0 raises an error. -/
theorem C8_counterexample :
    (-1 : ℝ) ≤ 0 ∧ lambda_from_halflife (-1) = Except.ok (-1) := by
  constructor
  · norm_num
  · unfold lambda_from_halflife
    rw [if_neg (by norm_num)]
    have h₁ : (-1 : ℝ) / (-1) = 1 := by norm_num
    have h₂ : Real.rpow 2 1 = 2 := Real.rpow_one 2
    rw [h₁, h₂]
    norm_num

/-- C8 amended: only H = 0 raises (ZeroDivisionError); for H less than 0
the function silently returns 1 - 2 ** (-1/H), which is negative; and for
every H greater than 0 it returns lambda = 1 - 2 ** (-1/H), which lies in
(0, 1). -/
theorem C8_halflife_behaviour :
    ∀ H : ℝ,
      (H = 0 → lambda_from_halflife H = Except.error PyExc.zeroDivisionError)
      ∧ (H < 0 → lambda_from_halflife H = Except.ok (1 - Real.rpow 2 (-1 / H)) ∧
          1 - Real.rpow 2 (-1 / H) < 0)
      ∧ (0 < H → lambda_from_halflife H = Except.ok (1 - Real.rpow 2 (-1 / H)) ∧
          0 < 1 - Real.rpow 2 (-1 / H) ∧ 1 - Real.rpow 2 (-1 / H) < 1) := by
  intro H
  refine ⟨?_, ?_, ?_⟩
  · intro h
    unfold lambda_from_halflife
    rw [if_pos h]
  · intro h
    have hne : H ≠ 0 := ne_of_lt h
    have hpos : 0 < -1 / H := div_pos_of_neg_of_neg (by norm_num) h
    have hgt : 1 < Real.rpow 2 (-1 / H) := Real.one_lt_rpow (by norm_num) hpos
    refine ⟨?_, by linarith⟩
    unfold lambda_from_halflife
    rw [if_neg hne]
  · intro h
    have hne : H ≠ 0 := ne_of_gt h
    have hneg : -1 / H < 0 := div_neg_of_neg_of_pos (by norm_num) h
    have hlt : Real.rpow 2 (-1 / H) < 1 :=
      Real.rpow_lt_one_of_one_lt_of_neg (by norm_num) hneg
    have hpos : 0 < Real.rpow 2 (-1 / H) := Real.rpow_pos_of_pos (by norm_num) _
    refine ⟨?_, by linarith, by linarith⟩
    unfold lambda_from_halflife
    rw [if_neg hne]

/-- C8 witness: the zero clause of the amended claim applied at the
concrete half-life 0. -/
theorem C8_witness :
    lambda_from_halflife 0 = Except.error PyExc.zeroDivisionError :=
  (C8_halflife_behaviour 0).1 rfl

/-- The per-index row persisted by scripts/run_pipeline.py (the
IndexSnapshot columns the RPI processing reads and writes). -/
structure IndexSnapshot where
  raw_total : ℝ
  weighted_total : ℝ
  z_score : Option ℝ
  ewma_mean : Option ℝ
  ewma_sigma : Option ℝ
  cusum_upper : Option ℝ
  cusum_lower : Option ℝ

/-- The EWMA state loaded by run_pipeline from the most recent prior
snapshot: a fresh baseline unless a prior row with a non-None ewma_mean
exists, in which case mean := previous.ewma_mean and variance :=
(previous.ewma_sigma or 0.0) ** 2. -/
noncomputable def loadEWMA (lam : ℝ) (previous : Option IndexSnapshot) : EWMABaseline :=
  match previous with
  | none => EWMABaseline.init lam
  | some p =>
    match p.ewma_mean with
    | none => EWMABaseline.init lam
    | some m => ⟨lam, some m, some ((p.ewma_sigma.getD 0) ^ 2)⟩

/-- The CUSUM state loaded by run_pipeline from the most recent prior
snapshot: the stored (cusum_upper, cusum_lower) when both are non-None,
otherwise the CUSUMState() default (0, 0). -/
noncomputable def loadCUSUM (previous : Option IndexSnapshot) : CUSUMState :=
  match previous with
  | none => cusumInit
  | some p =>
    match p.cusum_upper, p.cusum_lower with
    | some u, some l => ⟨u, l⟩
    | _, _ => cusumInit

/-- One period of RPI processing from scripts/run_pipeline.py: load the
EWMA state from the latest prior snapshot, update it with the current
weighted total, compute the z-score from the post-update mean and sigma,
and update the CUSUM detector only when the z-score is defined (the alarm
flag returned by the detector is discarded by the script). The snapshot
written for the period stores None in both cusum columns when the z-score
is undefined. The pair (ewma_mean, ewma_sigma) returned by the update is
named rpiObserved. -/
noncomputable def rpiObserved (lam : ℝ) (previous : Option IndexSnapshot) (x : ℝ) : ℝ × ℝ :=
  ((loadEWMA lam previous).update x).2

/-- The snapshot row written for the period by the RPI branch of
run_pipeline (see rpiObserved for the loaded-and-updated EWMA outputs). -/
noncomputable def runPipelineRPIStep (lam k : ℝ) (previous : Option IndexSnapshot)
    (raw_total current_weighted : ℝ) : IndexSnapshot :=
  match compute_zscore current_weighted (rpiObserved lam previous current_weighted).1
      (rpiObserved lam previous current_weighted).2 with
  | none =>
    ⟨raw_total, current_weighted, none,
      some (rpiObserved lam previous current_weighted).1,
      some (rpiObserved lam previous current_weighted).2, none, none⟩
  | some z =>
    ⟨raw_total, current_weighted, some z,
      some (rpiObserved lam previous current_weighted).1,
      some (rpiObserved lam previous current_weighted).2,
      some (cusumUpdate k (loadCUSUM previous) z).upper,
      some (cusumUpdate k (loadCUSUM previous) z).lower⟩

/-- A concrete prior snapshot carrying a nonzero CUSUM state (upper = 2)
together with a degenerate baseline (sigma = 0), used to exercise a
period whose z-score is undefined. -/
noncomputable def prevSnap : IndexSnapshot :=
  ⟨1, 1, none, some 1, some 0, some 2, some 0⟩

/-- C1 counterexample: starting from prevSnap with lam = 1/2, processing
the weighted total 1 yields an undefined z-score (post-update sigma = 0),
yet the CUSUM state the next period will load from the written snapshot
is the reset state (0, 0), not the state (2, 0) that this period loaded:
the written row stores None in both cusum columns, so the accumulated
state is dropped rather than carried. -/
theorem C1_counterexample :
    (runPipelineRPIStep (1/2) (1/2) (some prevSnap) 1 1).z_score = none ∧
    loadCUSUM (some prevSnap) = ⟨2, 0⟩ ∧
    loadCUSUM (some (runPipelineRPIStep (1/2) (1/2) (some prevSnap) 1 1)) = ⟨0, 0⟩ ∧
    loadCUSUM (some (runPipelineRPIStep (1/2) (1/2) (some prevSnap) 1 1)) ≠
      loadCUSUM (some prevSnap) := by
  have hload : loadEWMA (1/2) (some prevSnap) = ⟨1/2, some 1, some 0⟩ := by
    unfold loadEWMA prevSnap
    norm_num
  have hupd : (loadEWMA (1/2) (some prevSnap)).update 1 = (⟨1/2, some 1, some 0⟩, 1, 0) := by
    rw [hload]
    unfold EWMABaseline.update
    norm_num
  have hobs : rpiObserved (1/2) (some prevSnap) 1 = (1, 0) := by
    unfold rpiObserved
    rw [hupd]
  have hz : compute_zscore 1 (1 : ℝ) 0 = none := by
    unfold compute_zscore
    norm_num
  have hstep : runPipelineRPIStep (1/2) (1/2) (some prevSnap) 1 1 =
      ⟨1, 1, none, some 1, some 0, none, none⟩ := by
    unfold runPipelineRPIStep
    rw [hobs]
    simp only
    rw [hz]
  refine ⟨by rw [hstep], by unfold loadCUSUM prevSnap; rfl, by rw [hstep]; rfl, ?_⟩
  rw [hstep]
  unfold loadCUSUM prevSnap
  intro h
  have : (0 : ℝ) = 2 := congrArg CUSUMState.upper h
  norm_num at this

/-- C1 amended: in every period whose z-score is undefined the CUSUM
detector is never invoked — no accumulator moves and no alarm can be
computed that period — but the snapshot written for the period stores
None in both cusum columns, so the state the next period loads from it is
the reset state (0, 0); this equals the state loaded from the prior
period only when that loaded state was already (0, 0). -/
theorem C1_undefined_z_drops_cusum :
    ∀ (lam k raw x : ℝ) (previous : Option IndexSnapshot),
      (runPipelineRPIStep lam k previous raw x).z_score = none →
      (runPipelineRPIStep lam k previous raw x).cusum_upper = none ∧
      (runPipelineRPIStep lam k previous raw x).cusum_lower = none ∧
      loadCUSUM (some (runPipelineRPIStep lam k previous raw x)) = cusumInit ∧
      (loadCUSUM previous = cusumInit →
        loadCUSUM (some (runPipelineRPIStep lam k previous raw x)) = loadCUSUM previous) := by
  intro lam k raw x previous hz
  cases hzc : compute_zscore x (rpiObserved lam previous x).1 (rpiObserved lam previous x).2 with
  | none =>
    have hstep : runPipelineRPIStep lam k previous raw x =
        ⟨raw, x, none, some (rpiObserved lam previous x).1,
          some (rpiObserved lam previous x).2, none, none⟩ := by
      unfold runPipelineRPIStep
      rw [hzc]
    rw [hstep]
    exact ⟨rfl, rfl, rfl, fun hprev => by rw [hprev]; rfl⟩
  | some z =>
    unfold runPipelineRPIStep at hz
    rw [hzc] at hz
    simp at hz

/-- C1 witness: the amended claim applied at the first-ever period
(previous = None), where the first EWMA observation gives sigma = 0 and
hence an undefined z-score. -/
theorem C1_witness :
    (runPipelineRPIStep (1/2) (1/2) none 1 1).cusum_upper = none ∧
    (runPipelineRPIStep (1/2) (1/2) none 1 1).cusum_lower = none ∧
    loadCUSUM (some (runPipelineRPIStep (1/2) (1/2) none 1 1)) = cusumInit ∧
    (loadCUSUM none = cusumInit →
      loadCUSUM (some (runPipelineRPIStep (1/2) (1/2) none 1 1)) = loadCUSUM none) :=
  C1_undefined_z_drops_cusum (1/2) (1/2) 1 1 none (by
    unfold runPipelineRPIStep rpiObserved loadEWMA EWMABaseline.init EWMABaseline.update
      compute_zscore
    norm_num)

/-- The record run_pipeline appends to attribution_data for each event
and src/src/pipeline/attribution.py consumes: the weighted score, the
source layer value, the semicolon-separated impact pathway string, and
the jurisdiction value. -/
structure AttrEvent where
  weighted_score : ℚ
  source_layer : String
  impact_pathway : String
  jurisdiction : String

/-- Python str.split on the single-character separator of the source
(";"): produces one piece per separator occurrence plus one, never an
empty list. -/
def splitSemi : List Char → List (List Char)
  | [] => [[]]
  | c :: cs =>
      if c = ';' then [] :: splitSemi cs
      else (c :: (splitSemi cs).headD []) :: (splitSemi cs).tail

/-- Python str.strip: drop whitespace from both ends. -/
def pyStrip (l : List Char) : List Char :=
  ((l.dropWhile Char.isWhitespace).reverse.dropWhile Char.isWhitespace).reverse

/-- The list of stripped pathway tags of an event, as attribution.py
computes it: e.impact_pathway.split(";") with each piece stripped. -/
def pathwayTags (e : AttrEvent) : List String :=
  (splitSemi e.impact_pathway.data).map (fun l => String.mk (pyStrip l))

/-- splitSemi never returns the empty list (Python split always returns
at least one piece). -/
theorem splitSemi_ne_nil : ∀ l : List Char, splitSemi l ≠ [] := by
  intro l
  cases l with
  | nil => simp [splitSemi]
  | cons c cs =>
    unfold splitSemi
    by_cases h : c = ';' <;> simp [h]

/-- Every event has at least one pathway tag. -/
theorem pathwayTags_ne_nil (e : AttrEvent) : pathwayTags e ≠ [] := by
  unfold pathwayTags
  intro h
  exact splitSemi_ne_nil _ (List.map_eq_nil_iff.mp h)

/-- The dict accumulation d[key] += v of attribution.py on an
insertion-ordered association list: add into an existing entry or append
a new one. -/
def bump : List (String × ℚ) → String → ℚ → List (String × ℚ)
  | [], k, v => [(k, v)]
  | (k₀, v₀) :: rest, k, v =>
      if k₀ = k then (k₀, v₀ + v) :: rest else (k₀, v₀) :: bump rest k v

/-- The sum of the values of an association list (the sum over a Python
dict of its values). -/
def valuesSum (m : List (String × ℚ)) : ℚ := (m.map Prod.snd).sum

/-- total_abs from attribution.py: the sum of the absolute weighted
scores of all events. -/
def totalAbs (events : List AttrEvent) : ℚ :=
  (events.map (fun e => |e.weighted_score|)).sum

/-- The by_source and by_jurisdiction loops of attribution.py: each event
contributes its absolute weighted score entirely to its single tagged
value under the given key. -/
def tallyBy (key : AttrEvent → String) (events : List AttrEvent) : List (String × ℚ) :=
  events.foldl (fun m e => bump m (key e) |e.weighted_score|) []

/-- The by_pathway loop of attribution.py: the absolute weighted score of
an event is split evenly across its pathway tags before bucketing. -/
def tallyPathways (events : List AttrEvent) : List (String × ℚ) :=
  events.foldl (fun m e =>
    (pathwayTags e).foldl
      (fun m₂ t => bump m₂ t (|e.weighted_score| / ((pathwayTags e).length : ℚ))) m) []

/-- The final division of every bucket by total_abs in attribution.py. -/
def normalizeVals (t : ℚ) (m : List (String × ℚ)) : List (String × ℚ) :=
  m.map (fun kv => (kv.1, kv.2 / t))

/-- compute_attribution from src/src/pipeline/attribution.py: three empty
mappings when total_abs is 0, otherwise the three normalized bucket
mappings (source_layer, impact_pathway, jurisdiction). -/
def compute_attribution (events : List AttrEvent) :
    List (String × ℚ) × List (String × ℚ) × List (String × ℚ) :=
  if totalAbs events = 0 then ([], [], [])
  else
    (normalizeVals (totalAbs events) (tallyBy (fun e => e.source_layer) events),
     normalizeVals (totalAbs events) (tallyPathways events),
     normalizeVals (totalAbs events) (tallyBy (fun e => e.jurisdiction) events))

/-- Accumulating v at any key adds exactly v to the value sum. -/
theorem valuesSum_bump : ∀ (m : List (String × ℚ)) (k : String) (v : ℚ),
    valuesSum (bump m k v) = valuesSum m + v := by
  intro m k v
  induction m with
  | nil => simp [bump, valuesSum]
  | cons kv rest ih =>
    obtain ⟨k₀, v₀⟩ := kv
    unfold bump
    by_cases h : k₀ = k
    · rw [if_pos h]
      simp [valuesSum]
      ring
    · rw [if_neg h]
      simp [valuesSum] at ih ⊢
      rw [ih]
      ring

/-- The value sum of a single-key tally over any starting accumulator is
the starting sum plus the total absolute score. -/
theorem tallyBy_sum_from (key : AttrEvent → String) :
    ∀ (events : List AttrEvent) (m : List (String × ℚ)),
      valuesSum (events.foldl (fun m₀ e => bump m₀ (key e) |e.weighted_score|) m) =
        valuesSum m + totalAbs events := by
  intro events
  induction events with
  | nil => intro m; simp [totalAbs]
  | cons e rest ih =>
    intro m
    show valuesSum (rest.foldl _ (bump m (key e) |e.weighted_score|)) = _
    rw [ih (bump m (key e) |e.weighted_score|), valuesSum_bump]
    simp [totalAbs]
    ring

/-- The value sum of the two single-key mappings equals total_abs. -/
theorem tallyBy_sum (key : AttrEvent → String) (events : List AttrEvent) :
    valuesSum (tallyBy key events) = totalAbs events := by
  unfold tallyBy
  rw [tallyBy_sum_from key events []]
  simp [valuesSum]

/-- Bumping a constant amount once per tag adds length times that amount
to the value sum. -/
theorem foldl_bump_const : ∀ (tags : List String) (m : List (String × ℚ)) (per : ℚ),
    valuesSum (tags.foldl (fun m₂ t => bump m₂ t per) m) =
      valuesSum m + (tags.length : ℚ) * per := by
  intro tags
  induction tags with
  | nil => intro m per; simp
  | cons t rest ih =>
    intro m per
    show valuesSum (rest.foldl _ (bump m t per)) = _
    rw [ih (bump m t per) per, valuesSum_bump]
    simp [List.length_cons]
    ring

/-- The value sum of the pathway tally over any starting accumulator is
the starting sum plus the total absolute score: each event contributes
length * (score / length) = score, its tag list being nonempty. -/
theorem tallyPathways_sum_from :
    ∀ (events : List AttrEvent) (m : List (String × ℚ)),
      valuesSum (events.foldl (fun m₀ e =>
        (pathwayTags e).foldl
          (fun m₂ t => bump m₂ t (|e.weighted_score| / ((pathwayTags e).length : ℚ))) m₀) m) =
        valuesSum m + totalAbs events := by
  intro events
  induction events with
  | nil => intro m; simp [totalAbs]
  | cons e rest ih =>
    intro m
    show valuesSum (rest.foldl _ _) = _
    rw [ih, foldl_bump_const]
    have hne : ((pathwayTags e).length : ℚ) ≠ 0 := by
      have hlen : (pathwayTags e).length ≠ 0 :=
        fun hh => pathwayTags_ne_nil e (List.length_eq_zero.mp hh)
      exact Nat.cast_ne_zero.mpr hlen
    rw [mul_comm, div_mul_cancel₀ _ hne]
    simp [totalAbs]
    ring

/-- The value sum of the pathway mapping equals total_abs. -/
theorem tallyPathways_sum (events : List AttrEvent) :
    valuesSum (tallyPathways events) = totalAbs events := by
  unfold tallyPathways
  rw [tallyPathways_sum_from events []]
  simp [valuesSum]

/-- Dividing every value by t divides the value sum by t. -/
theorem valuesSum_normalize (t : ℚ) : ∀ m : List (String × ℚ),
    valuesSum (normalizeVals t m) = valuesSum m / t := by
  intro m
  induction m with
  | nil => simp [normalizeVals, valuesSum]
  | cons kv rest ih =>
    simp [normalizeVals, valuesSum] at ih ⊢
    rw [ih, add_div]

/-- totalAbs is nonnegative. -/
theorem totalAbs_nonneg (events : List AttrEvent) : 0 ≤ totalAbs events := by
  unfold totalAbs
  apply List.sum_nonneg
  intro x hx
  obtain ⟨e, _, he⟩ := List.mem_map.mp hx
  rw [← he]
  exact abs_nonneg _

/-- totalAbs vanishes exactly when every weighted score is exactly 0 (so
the guard in attribution.py fires precisely for an empty or all-zero
collection). -/
theorem totalAbs_eq_zero_iff (events : List AttrEvent) :
    totalAbs events = 0 ↔ ∀ e ∈ events, e.weighted_score = 0 := by
  induction events with
  | nil => simp [totalAbs]
  | cons e rest ih =>
    have hsplit : totalAbs (e :: rest) = |e.weighted_score| + totalAbs rest := by
      simp [totalAbs]
    rw [hsplit]
    constructor
    · intro h
      have h₁ : |e.weighted_score| = 0 ∧ totalAbs rest = 0 :=
        (add_eq_zero_iff_of_nonneg (abs_nonneg _) (totalAbs_nonneg rest)).mp h
      intro f hf
      rcases List.mem_cons.mp hf with hf | hf
      · rw [hf]; exact abs_eq_zero.mp h₁.1
      · exact (ih.mp h₁.2) f hf
    · intro h
      have h₁ : e.weighted_score = 0 := h e (List.mem_cons_self e rest)
      have h₂ : totalAbs rest = 0 := ih.mpr (fun f hf => h f (List.mem_cons_of_mem e hf))
      rw [h₁, h₂, abs_zero, add_zero]

/-- C5: whenever the total absolute weighted score is nonzero, the values
of each of the three mappings returned by compute_attribution sum to
exactly 1 (hence within 1e-9 of 1.0); when it is zero — equivalently,
when the collection is empty or every weighted score is exactly 0 — all
three mappings are empty. -/
theorem C5_attribution_sums :
    (∀ events : List AttrEvent, totalAbs events ≠ 0 →
      valuesSum (compute_attribution events).1 = 1 ∧
      valuesSum (compute_attribution events).2.1 = 1 ∧
      valuesSum (compute_attribution events).2.2 = 1)
    ∧ (∀ events : List AttrEvent, totalAbs events = 0 →
      compute_attribution events = ([], [], []))
    ∧ (∀ events : List AttrEvent,
      totalAbs events = 0 ↔ ∀ e ∈ events, e.weighted_score = 0) := by
  refine ⟨?_, ?_, totalAbs_eq_zero_iff⟩
  · intro events h
    unfold compute_attribution
    rw [if_neg h]
    refine ⟨?_, ?_, ?_⟩
    · rw [valuesSum_normalize, tallyBy_sum, div_self h]
    · rw [valuesSum_normalize, tallyPathways_sum, div_self h]
    · rw [valuesSum_normalize, tallyBy_sum, div_self h]
  · intro events h
    unfold compute_attribution
    rw [if_pos h]

/-- C5 witness: the nonzero clause applied at a concrete two-event
collection (one event with two pathway tags, one with a negative score),
whose total absolute weighted score is 2. -/
theorem C5_witness :
    valuesSum (compute_attribution
      [⟨3/2, "Primary", "Cost; Time", "India"⟩,
       ⟨-(1/2), "Industry", "Cost", "UK"⟩]).1 = 1 ∧
    valuesSum (compute_attribution
      [⟨3/2, "Primary", "Cost; Time", "India"⟩,
       ⟨-(1/2), "Industry", "Cost", "UK"⟩]).2.1 = 1 ∧
    valuesSum (compute_attribution
      [⟨3/2, "Primary", "Cost; Time", "India"⟩,
       ⟨-(1/2), "Industry", "Cost", "UK"⟩]).2.2 = 1 :=
  C5_attribution_sums.1
    [⟨3/2, "Primary", "Cost; Time", "India"⟩, ⟨-(1/2), "Industry", "Cost", "UK"⟩]
    (by
      have h32 : |(3/2 : ℚ)| = 3/2 := abs_of_nonneg (by norm_num)
      have h12a : |(-(1/2) : ℚ)| = 1/2 := by
        rw [abs_neg]
        exact abs_of_nonneg (by norm_num)
      have h12b : |(1/2 : ℚ)| = 1/2 := abs_of_nonneg (by norm_num)
      unfold totalAbs
      norm_num [h32, h12a, h12b])

end Advuman
